import Mathlib

/-!
# WebSocket SSL echo server (coroutine example)

A shallow embedding of `example/websocket/server/coro-ssl/websocket_server_coro_ssl.cpp`.

The coroutines `do_session` and `do_listen` suspend at every asynchronous
operation (`yield[ec]`).  They are embedded as functions from a *script*, the
finite list of completions the I/O service delivers to the coroutine in order,
to the *trace* of operations the coroutine performs.  When the script is used
up the coroutine stays suspended in the operation it issued last: that
operation is in the trace, without a result.
-/

namespace Beast

/-! ## Error codes -/

/-- The category half of a `boost::system::error_code`. -/
inductive error_category where
  | system
  | ssl
  | websocket
  | other (id : Nat)
  deriving DecidableEq

/-- A `boost::system::error_code`: an integer value and its category. -/
structure error_code where
  value : Int
  category : error_category
  deriving DecidableEq

/-- The conversion `if(ec)`: an error code is set when its value is not zero. -/
def error_code.failed (ec : error_code) : Bool :=
  ec.value != 0

/-- Modelled from the spec: the enumeration `websocket::error` is declared outside
src/.  The spec describes `closed` as the way a read *fails* when the peer has
performed an orderly close, so it is a set error code of the websocket category.
Only two facts about it are used: it is set, and error codes can be compared. -/
def websocket_error_closed : error_code :=
  { value := 1, category := error_category.websocket }

/-- A default-constructed `boost::system::error_code`: no error. -/
def no_error : error_code :=
  { value := 0, category := error_category.system }

/-- Modelled from the spec: the error `MessageTooLarge` of the error taxonomy
(section 7), with which the stream rejects a message over its configured
maximum; the stream class that raises it is declared outside src/.  Only two
facts about it are used: it is set, and it is not `closed`. -/
def MessageTooLarge : error_code :=
  { value := 4, category := error_category.websocket }

/-! ## The session -/

/-- One octet of a message payload. -/
abbrev byte := Fin 256

/-- What the I/O service hands back when an asynchronous operation of a session
completes: the error code stored through `yield[ec]` and, for a read, the octets
the read appended to the buffer and the answer `ws.got_text()` gives afterwards.
The last two fields are ignored by the operations that are not reads. -/
structure completion where
  ec : error_code
  bytes : List byte
  got_text : Bool
  deriving DecidableEq

/-- The part of `websocket::stream` state that `do_session` touches: the
outgoing message type chosen with `ws.text(bool)` and the type of the message
read last, answered by `ws.got_text()`. -/
structure stream where
  text : Bool
  got_text : Bool
  deriving DecidableEq

/-- Modelled from the spec: the class `websocket::stream` is declared outside
src/ and the spec does not describe a new stream.  The values chosen here do not
matter: the echo loop sets both fields before it uses them. -/
def stream.construct : stream :=
  { text := true, got_text := false }

/-- A message as the peer sends it: its type and its payload. -/
structure message where
  text : Bool
  payload : List byte
  deriving DecidableEq

/-- Modelled from the spec: the read of `websocket::stream`, which is declared
outside src/, on a stream whose configured maximum message size is `maximum`
(`do_session` leaves the configuration of the stream as it is constructed).
A message of at most `maximum` octets is delivered whole, with its type and
without error.  A longer message is rejected with `MessageTooLarge`; the buffer
then holds what was taken in before the limit was reached. -/
def stream_read (maximum : Nat) (m : message) : completion :=
  if maximum < m.payload.length then
    { ec := MessageTooLarge, bytes := m.payload.take maximum, got_text := m.text }
  else
    { ec := no_error, bytes := m.payload, got_text := m.text }

/-- The operations a session performs, with the result of each asynchronous one
(`none`: the operation never completed, the coroutine stays suspended in it). -/
inductive event where
  | async_handshake (result : Option error_code)
  | async_accept (result : Option error_code)
  | async_read (result : Option completion)
  | async_write (text : Bool) (data : List byte) (result : Option error_code)
  | fail (ec : error_code) (what : String)
  deriving DecidableEq

/-- How a coroutine ended up: it returned to its caller, or it stays suspended
in an asynchronous operation. Both functions return `void` and take every error
through `yield[ec]` or an `ec` out-parameter, so nothing else can happen. -/
inductive status where
  | returned
  | suspended
  deriving DecidableEq

/-- The `for(;;)` loop of `do_session`, lines 68-88.  The result is the list of
the iterations entered, each with the operations it performed, and how the loop
was left. -/
def echo_loop (ws : stream) : List completion → List (List event) × status
  | [] =>
    -- ws.async_read(buffer, yield[ec]) never completes
    ([[event.async_read none]], status.suspended)
  | r :: script =>
    -- boost::beast::multi_buffer buffer;
    let buffer : List byte := []
    -- ws.async_read(buffer, yield[ec]);
    let buffer := buffer ++ r.bytes
    let ws := { ws with got_text := r.got_text }
    let ec := r.ec
    if ec = websocket_error_closed then
      -- break;
      ([[event.async_read (some r)]], status.returned)
    else if ec.failed then
      -- return fail(ec, "read");
      ([[event.async_read (some r), event.fail ec "read"]], status.returned)
    else
      -- ws.text(ws.got_text());
      let ws := { ws with text := ws.got_text }
      -- ws.async_write(buffer.data(), yield[ec]);
      match script with
      | [] =>
        ([[event.async_read (some r), event.async_write ws.text buffer none]],
          status.suspended)
      | w :: script =>
        let ec := w.ec
        if ec.failed then
          -- return fail(ec, "write");
          ([[event.async_read (some r), event.async_write ws.text buffer (some ec),
              event.fail ec "write"]], status.returned)
        else
          let rest := echo_loop ws script
          ([event.async_read (some r), event.async_write ws.text buffer (some ec)]
            :: rest.1, rest.2)

/-- What one run of `do_session` did: the operations before the echo loop, the
iterations of the echo loop, and how the coroutine ended up. -/
structure session_run where
  setup : List event
  loop : List (List event)
  status : status
  deriving DecidableEq

/-- All operations of a run, in the order they were performed. -/
def session_run.trace (run : session_run) : List event :=
  run.setup ++ run.loop.flatten

/-- The coroutine `do_session`, lines 47-89.  The socket and the SSL context only
go into the construction of the stream; `yield` is the script of completions. -/
def do_session (script : List completion) : session_run :=
  -- websocket::stream<ssl::stream<tcp::socket&>> ws{socket, ctx};
  let ws := stream.construct
  -- ws.next_layer().async_handshake(ssl::stream_base::server, yield[ec]);
  match script with
  | [] => ⟨[event.async_handshake none], [], status.suspended⟩
  | h :: script =>
    if h.ec.failed then
      -- return fail(ec, "handshake");
      ⟨[event.async_handshake (some h.ec), event.fail h.ec "handshake"], [],
        status.returned⟩
    else
      -- ws.async_accept(yield[ec]);
      match script with
      | [] =>
        ⟨[event.async_handshake (some h.ec), event.async_accept none], [],
          status.suspended⟩
      | a :: script =>
        if a.ec.failed then
          -- return fail(ec, "accept");
          ⟨[event.async_handshake (some h.ec), event.async_accept (some a.ec),
              event.fail a.ec "accept"], [], status.returned⟩
        else
          let rest := echo_loop ws script
          ⟨[event.async_handshake (some h.ec), event.async_accept (some a.ec)],
            rest.1, rest.2⟩

/-! ## Observations on session traces -/

/-- The event is a message read. -/
def event.is_read : event → Bool
  | event.async_read _ => true
  | _ => false

/-- The event is a message write. -/
def event.is_write : event → Bool
  | event.async_write _ _ _ => true
  | _ => false

/-- The event is a call of `fail`. -/
def event.is_fail : event → Bool
  | event.fail _ _ => true
  | _ => false

/-- The event is the SSL handshake. -/
def event.is_handshake : event → Bool
  | event.async_handshake _ => true
  | _ => false

/-- The event is the WebSocket accept. -/
def event.is_accept : event → Bool
  | event.async_accept _ => true
  | _ => false

/-- The reads and writes of the echo loop of a run, in order. -/
def session_run.echo_ops (run : session_run) : List event :=
  run.loop.flatten.filter (fun e => e.is_read || e.is_write)

/-- The messages written, in order: type flag and payload of every write. -/
def written (trace : List event) : List (Bool × List byte) :=
  trace.filterMap fun e =>
    match e with
    | event.async_write text data _ => some (text, data)
    | _ => none

/-- The messages read successfully, in order: type and payload. -/
def received (trace : List event) : List (Bool × List byte) :=
  trace.filterMap fun e =>
    match e with
    | event.async_read (some r) => if r.ec.failed then none else some (r.got_text, r.bytes)
    | _ => none

/-- The session states named in the design of the session (section 4.5). -/
inductive session_state where
  | Connecting
  | TlsHandshaking
  | WsHandshaking
  | Echoing
  | Closed
  deriving DecidableEq

/-- Position of a state in the order Connecting, TlsHandshaking, WsHandshaking,
Echoing, Closed. -/
def session_state.rank : session_state → Nat
  | session_state.Connecting => 0
  | session_state.TlsHandshaking => 1
  | session_state.WsHandshaking => 2
  | session_state.Echoing => 3
  | session_state.Closed => 4

/-- The state a session is in when it performs an operation; a session that
calls `fail` is on its way out. -/
def event.state : event → session_state
  | event.async_handshake _ => session_state.TlsHandshaking
  | event.async_accept _ => session_state.WsHandshaking
  | event.async_read _ => session_state.Echoing
  | event.async_write _ _ _ => session_state.Echoing
  | event.fail _ _ => session_state.Closed

/-- The states a run goes through: Connecting before the first operation, the
state of every operation, and Closed once the coroutine has returned. -/
def session_run.states (run : session_run) : List session_state :=
  session_state.Connecting :: run.trace.map event.state ++
    (match run.status with
     | status.returned => [session_state.Closed]
     | status.suspended => [])

/-- A step between session states that keeps the order and skips no state,
except that Closed may be entered from anywhere. -/
def session_state.step (p q : session_state) : Prop :=
  p.rank ≤ q.rank ∧ (q.rank ≤ p.rank + 1 ∨ q = session_state.Closed)

/-! ## The listener -/

/-- The `ssl::context` shared by all sessions; `do_listen` only passes on a
reference to it. -/
structure ssl_context where
  id : Nat
  deriving DecidableEq

/-- A `tcp::endpoint`: address and port. -/
structure endpoint where
  address : String
  port : Nat
  deriving DecidableEq

/-- A `tcp::socket`: after a successful accept it holds the connection to a peer. -/
structure socket where
  connection : Option Nat
  deriving DecidableEq

/-- What the I/O service hands back when `async_accept` completes: the error
code and, on success, the connection now held by the socket. -/
structure accept_completion where
  ec : error_code
  connection : Nat
  deriving DecidableEq

/-- The outcomes the environment gives the listener: the error codes of the
three synchronous set-up calls and the completions of the accepts, in order. -/
structure listen_script where
  acceptor_open : error_code
  bind : error_code
  listen : error_code
  accepts : List accept_completion
  deriving DecidableEq

/-- The operations the listener performs. -/
inductive listen_event where
  | acceptor_open (ec : error_code)
  | bind (ep : endpoint) (ec : error_code)
  | listen (ec : error_code)
  | async_accept (result : Option accept_completion)
  | spawn_session (s : socket) (ctx : ssl_context)
  | fail (ec : error_code) (what : String)
  deriving DecidableEq

/-- What one run of `do_listen` did. -/
structure listen_run where
  trace : List listen_event
  status : status
  deriving DecidableEq

/-- The `for(;;)` loop of `do_listen`, lines 119-133.  It has no exit: when the
script is used up the coroutine is suspended in the next accept. -/
def accept_loop (ctx : ssl_context) : List accept_completion → List listen_event
  | [] =>
    -- acceptor.async_accept(socket, yield[ec]) never completes
    [listen_event.async_accept none]
  | a :: script =>
    -- tcp::socket socket(ios);
    let s : socket := { connection := none }
    -- acceptor.async_accept(socket, yield[ec]);
    let s : socket := if a.ec.failed then s else { connection := some a.connection }
    let ec := a.ec
    if ec.failed then
      listen_event.async_accept (some a) :: listen_event.fail ec "accept" ::
        accept_loop ctx script
    else
      listen_event.async_accept (some a) :: listen_event.spawn_session s ctx ::
        accept_loop ctx script

/-- The coroutine `do_listen`, lines 94-134. -/
def do_listen (ctx : ssl_context) (ep : endpoint) (script : listen_script) : listen_run :=
  -- acceptor.open(endpoint.protocol(), ec);
  let ec := script.acceptor_open
  if ec.failed then
    ⟨[listen_event.acceptor_open ec, listen_event.fail ec "open"], status.returned⟩
  else
    -- acceptor.bind(endpoint, ec);
    let ec := script.bind
    if ec.failed then
      ⟨[listen_event.acceptor_open script.acceptor_open, listen_event.bind ep ec,
          listen_event.fail ec "bind"], status.returned⟩
    else
      -- acceptor.listen(boost::asio::socket_base::max_connections, ec);
      let ec := script.listen
      if ec.failed then
        ⟨[listen_event.acceptor_open script.acceptor_open,
            listen_event.bind ep script.bind, listen_event.listen ec,
            listen_event.fail ec "listen"], status.returned⟩
      else
        ⟨listen_event.acceptor_open script.acceptor_open ::
            listen_event.bind ep script.bind :: listen_event.listen ec ::
            accept_loop ctx script.accepts, status.suspended⟩

/-- The results of the accepts of a trace, in order. -/
def accept_results (trace : List listen_event) : List (Option accept_completion) :=
  trace.filterMap fun e =>
    match e with
    | listen_event.async_accept result => some result
    | _ => none

/-- The sessions spawned in a trace, in order: socket and SSL context of each. -/
def spawned (trace : List listen_event) : List (socket × ssl_context) :=
  trace.filterMap fun e =>
    match e with
    | listen_event.spawn_session s ctx => some (s, ctx)
    | _ => none

/-- The failures reported in a listener trace, in order. -/
def reported (trace : List listen_event) : List (error_code × String) :=
  trace.filterMap fun e =>
    match e with
    | listen_event.fail ec what => some (ec, what)
    | _ => none

/-! ## The program -/

/-- The value of `EXIT_SUCCESS` in `<cstdlib>`. -/
def EXIT_SUCCESS : Int := 0

/-- The value of `EXIT_FAILURE` in `<cstdlib>`. -/
def EXIT_FAILURE : Int := 1

/-- Number of values of `std::size_t` (64 bits). -/
def SIZE_RANGE : Nat := 2 ^ 64

/-- Conversion of an `int` to `std::size_t`: reduction modulo `2^64`. -/
def to_size_t (n : Int) : Nat :=
  (n % (SIZE_RANGE : Int)).toNat

/-- The function `std::max<std::size_t>(a, b)`: `(a < b) ? b : a`. -/
def std_max (a b : Nat) : Nat :=
  if a < b then b else a

/-- The worker count of line 149, `std::max<std::size_t>(1, std::atoi(argv[3]))`,
as a function of the `int` that `atoi` returned: both arguments of `std::max`
are converted to `std::size_t` before they are compared. -/
def worker_count (n : Int) : Nat :=
  std_max (to_size_t 1) (to_size_t n)

/-- The loop of lines 172-177, `for(auto i = threads - 1; i > 0; --i)`, started
at `i`: the number of threads it puts into the vector. -/
def spawn_threads : Nat → Nat
  | 0 => 0
  | i + 1 => 1 + spawn_threads i

/-- The number of execution units that call `ios.run()` for a worker count:
the threads of the vector and the thread that runs `main`. -/
def execution_units (threads : Nat) : Nat :=
  spawn_threads ((threads + SIZE_RANGE - 1) % SIZE_RANGE) + 1

/-- The largest size `std::vector<std::thread>::reserve` accepts before it
throws `std::length_error` (64-bit target, element of 8 bytes). -/
def vector_max_size : Nat := (2 ^ 63 - 1) / 8

/-- The command line as `main` looks at it: `argc`, and, when there are four
arguments, whether `address::from_string(argv[1])` yields an address (it throws
otherwise) and the values `std::atoi` returns for `argv[2]` and `argv[3]`. -/
structure arguments where
  argc : Int
  address : Option String
  port : Int
  threads : Int
  deriving DecidableEq

/-- How the process ends: `main` returns an exit code, `std::terminate` is
called, or `ios.run()` never returns and the server keeps running. -/
inductive process_result where
  | exited (code : Int)
  | terminated
  | running
  deriving DecidableEq

/-- What one run of `main` did: the worker threads it started, the run of the
listener when `main` got as far as its own `ios.run()`, and how the process
ended. -/
structure main_run where
  threads_started : Nat
  listener : Option listen_run
  result : process_result
  deriving DecidableEq

/-- The function `main`, lines 136-181.  The SSL context `ctx` is the one
`load_server_certificate` has filled in.  `thread_limit` is what the machine can
provide: up to that many worker threads the reservation of the vector and the
start of the threads succeed; with more, `v.reserve` or the constructor of
`std::thread` throws (`std::bad_alloc`, `std::system_error`), nothing catches
the exception and `std::terminate` is called.  `ios.run()` returns when the I/O
service has no work left, which is when the listener coroutine has returned: a
listener that got into its accept loop always has an accept pending. -/
def main (args : arguments) (ctx : ssl_context) (script : listen_script)
    (thread_limit : Nat) : main_run :=
  if args.argc ≠ 4 then
    -- return EXIT_FAILURE;
    ⟨0, none, process_result.exited EXIT_FAILURE⟩
  else
    match args.address with
    | none =>
      -- from_string throws, nothing catches
      ⟨0, none, process_result.terminated⟩
    | some address =>
      -- static_cast<unsigned short>(std::atoi(argv[2]))
      let port := (args.port % 65536).toNat
      let threads := worker_count args.threads
      -- v.reserve(threads - 1); v.emplace_back(...) for each of them
      let n := (threads + SIZE_RANGE - 1) % SIZE_RANGE
      if vector_max_size < n ∨ thread_limit < n then
        ⟨0, none, process_result.terminated⟩
      else
        let started := spawn_threads n
        -- ios.run();
        let listener := do_listen ctx ⟨address, port⟩ script
        match listener.status with
        | status.suspended => ⟨started, some listener, process_result.running⟩
        | status.returned =>
          -- return EXIT_SUCCESS; the vector is destroyed with its threads unjoined
          if started = 0 then
            ⟨started, some listener, process_result.exited EXIT_SUCCESS⟩
          else
            ⟨started, some listener, process_result.terminated⟩

/-! ## Example data -/

/-- The system error 104, connection reset by peer. -/
def connection_reset : error_code :=
  { value := 104, category := error_category.system }

/-- The system error 98, address already in use. -/
def address_in_use : error_code :=
  { value := 98, category := error_category.system }

/-- An operation that completed without error and brought no data. -/
def done : completion :=
  { ec := no_error, bytes := [], got_text := false }

/-- A read that brought the text message "ping". -/
def ping : completion :=
  { ec := no_error, bytes := [112, 105, 110, 103], got_text := true }

/-- A read that ended because the peer closed the WebSocket connection. -/
def peer_closed : completion :=
  { ec := websocket_error_closed, bytes := [], got_text := false }

/-- An operation that ended with a connection reset. -/
def reset : completion :=
  { ec := connection_reset, bytes := [], got_text := false }

/-- The command line of the usage example, `0.0.0.0 8080 1`. -/
def usage_example : arguments :=
  { argc := 4, address := some "0.0.0.0", port := 8080, threads := 1 }

/-! ## Auxiliary notions for the proofs -/

/-- An iteration of the echo loop that read a message and wrote it back, both
without error. -/
def echoed (it : List event) : Prop :=
  ∃ r w : completion, r.ec.failed = false ∧ w.ec.failed = false ∧
    it = [event.async_read (some r), event.async_write r.got_text r.bytes (some w.ec)]

/-- The states after the loop was left. -/
def closing : status → List session_state
  | status.returned => [session_state.Closed]
  | status.suspended => []

/-! ## The echo loop, iteration by iteration -/

theorem closed_failed : websocket_error_closed.failed = true := by decide

theorem ne_closed_of_ok {ec : error_code} (h : ec.failed = false) :
    ec ≠ websocket_error_closed := by
  intro hc
  rw [hc, closed_failed] at h
  exact Bool.noConfusion h

theorem echo_loop_nil (ws : stream) :
    echo_loop ws [] = ([[event.async_read none]], status.suspended) := by
  simp [echo_loop]

theorem echo_loop_closed (ws : stream) (r : completion) (script : List completion)
    (h : r.ec = websocket_error_closed) :
    echo_loop ws (r :: script) = ([[event.async_read (some r)]], status.returned) := by
  simp [echo_loop, h]

theorem echo_loop_read_failed (ws : stream) (r : completion) (script : List completion)
    (hc : r.ec ≠ websocket_error_closed) (h : r.ec.failed = true) :
    echo_loop ws (r :: script) =
      ([[event.async_read (some r), event.fail r.ec "read"]], status.returned) := by
  simp [echo_loop, hc, h]

theorem echo_loop_write_pending (ws : stream) (r : completion) (h : r.ec.failed = false) :
    echo_loop ws [r] =
      ([[event.async_read (some r), event.async_write r.got_text r.bytes none]],
        status.suspended) := by
  simp [echo_loop, ne_closed_of_ok h, h]

theorem echo_loop_write_failed (ws : stream) (r w : completion) (script : List completion)
    (h : r.ec.failed = false) (hw : w.ec.failed = true) :
    echo_loop ws (r :: w :: script) =
      ([[event.async_read (some r), event.async_write r.got_text r.bytes (some w.ec),
          event.fail w.ec "write"]], status.returned) := by
  simp [echo_loop, ne_closed_of_ok h, h, hw]

theorem echo_loop_stream (ws ws' : stream) (script : List completion) :
    echo_loop ws script = echo_loop ws' script := by
  cases script with
  | nil => simp [echo_loop]
  | cons r script =>
    cases script with
    | nil => simp [echo_loop]
    | cons w script => simp [echo_loop]

theorem echo_loop_echo (ws : stream) (r w : completion) (script : List completion)
    (h : r.ec.failed = false) (hw : w.ec.failed = false) :
    echo_loop ws (r :: w :: script) =
      ([event.async_read (some r), event.async_write r.got_text r.bytes (some w.ec)] ::
          (echo_loop stream.construct script).1, (echo_loop stream.construct script).2) := by
  simp only [echo_loop, ne_closed_of_ok h, h, hw]
  simp [echo_loop_stream _ stream.construct script]


theorem echo_loop_split (n : Nat) :
    ∀ (ws : stream) (script : List completion) (evs : List event),
      (echo_loop ws script).1[n]? = some evs →
      ∃ its : List (List event), its.length = n ∧ (∀ it ∈ its, echoed it) ∧
        (echo_loop ws script).1 = its ++ (echo_loop ws (script.drop (2 * n))).1 ∧
        (echo_loop ws script).2 = (echo_loop ws (script.drop (2 * n))).2 := by
  induction n with
  | zero =>
    intro ws script evs _
    exact ⟨[], rfl, by simp, by simp, by simp⟩
  | succ n ih =>
    intro ws script evs h
    match script with
    | [] => simp [echo_loop_nil] at h
    | [r] =>
      by_cases hc : r.ec = websocket_error_closed
      · simp [echo_loop_closed ws r [] hc] at h
      · by_cases hf : r.ec.failed = true
        · simp [echo_loop_read_failed ws r [] hc hf] at h
        · simp [echo_loop_write_pending ws r (by simpa using hf)] at h
    | r :: w :: script =>
      by_cases hc : r.ec = websocket_error_closed
      · simp [echo_loop_closed ws r _ hc] at h
      · by_cases hf : r.ec.failed = true
        · simp [echo_loop_read_failed ws r _ hc hf] at h
        · have hf : r.ec.failed = false := by simpa using hf
          by_cases hw : w.ec.failed = true
          · simp [echo_loop_write_failed ws r w script hf hw] at h
          · have hw : w.ec.failed = false := by simpa using hw
            rw [echo_loop_echo ws r w script hf hw] at h ⊢
            simp only [List.getElem?_cons_succ] at h
            obtain ⟨its, hlen, hall, h1, h2⟩ := ih stream.construct script evs h
            refine ⟨[event.async_read (some r), event.async_write r.got_text r.bytes (some w.ec)] :: its,
              by simp [hlen], ?_, ?_, ?_⟩
            · intro it hit
              rcases List.mem_cons.mp hit with rfl | hit
              · exact ⟨r, w, hf, hw, rfl⟩
              · exact hall it hit
            · have : 2 * (n + 1) = (2 * n) + 1 + 1 := by ring
              simp only [this, List.drop_succ_cons]
              rw [echo_loop_stream ws stream.construct]
              simp [h1]
            · have : 2 * (n + 1) = (2 * n) + 1 + 1 := by ring
              simp only [this, List.drop_succ_cons]
              rw [echo_loop_stream ws stream.construct]
              simp [h2]

theorem echo_loop_append (n : Nat) :
    ∀ (ws : stream) (pre tail : List completion), pre.length = 2 * n →
      (∀ c ∈ pre, c.ec.failed = false) →
      ∃ its : List (List event), its.length = n ∧ (∀ it ∈ its, echoed it) ∧
        echo_loop ws (pre ++ tail) =
          (its ++ (echo_loop ws tail).1, (echo_loop ws tail).2) := by
  induction n with
  | zero =>
    intro ws pre tail hlen _
    have : pre = [] := List.length_eq_zero.mp (by simpa using hlen)
    subst this
    exact ⟨[], rfl, by simp, by simp⟩
  | succ n ih =>
    intro ws pre tail hlen hok
    match pre, hlen, hok with
    | [], hlen, _ => simp at hlen
    | [_], hlen, _ => simp at hlen; omega
    | r :: w :: pre, hlen, hok =>
      have hf : r.ec.failed = false := hok r (by simp)
      have hw : w.ec.failed = false := hok w (by simp)
      obtain ⟨its, hl, hall, h⟩ := ih stream.construct pre tail
        (by simp at hlen; omega) (fun c hc => hok c (by simp [hc]))
      refine ⟨[event.async_read (some r), event.async_write r.got_text r.bytes (some w.ec)] :: its,
        by simp [hl], ?_, ?_⟩
      · intro it hit
        rcases List.mem_cons.mp hit with rfl | hit
        · exact ⟨r, w, hf, hw, rfl⟩
        · exact hall it hit
      · simp only [List.cons_append]
        rw [echo_loop_echo ws r w _ hf hw, h, echo_loop_stream ws stream.construct tail]


/-- Case analysis and induction along the iterations of the echo loop. -/
theorem echo_loop_cases (P : List completion → List (List event) × status → Prop)
    (pending_read : P [] ([[event.async_read none]], status.suspended))
    (closed : ∀ (r : completion) (script : List completion),
      r.ec = websocket_error_closed →
      P (r :: script) ([[event.async_read (some r)]], status.returned))
    (read_failed : ∀ (r : completion) (script : List completion),
      r.ec ≠ websocket_error_closed → r.ec.failed = true →
      P (r :: script)
        ([[event.async_read (some r), event.fail r.ec "read"]], status.returned))
    (pending_write : ∀ r : completion, r.ec.failed = false →
      P [r] ([[event.async_read (some r), event.async_write r.got_text r.bytes none]],
        status.suspended))
    (write_failed : ∀ (r w : completion) (script : List completion),
      r.ec.failed = false → w.ec.failed = true →
      P (r :: w :: script)
        ([[event.async_read (some r), event.async_write r.got_text r.bytes (some w.ec),
          event.fail w.ec "write"]], status.returned))
    (echo : ∀ (r w : completion) (script : List completion),
      r.ec.failed = false → w.ec.failed = false →
      P script (echo_loop stream.construct script) →
      P (r :: w :: script)
        ([event.async_read (some r), event.async_write r.got_text r.bytes (some w.ec)] ::
          (echo_loop stream.construct script).1, (echo_loop stream.construct script).2)) :
    ∀ (ws : stream) (script : List completion), P script (echo_loop ws script) := by
  intro ws script
  generalize hn : script.length = n
  induction n using Nat.strong_induction_on generalizing ws script with
  | _ n ih =>
    match script, hn with
    | [], _ => rw [echo_loop_nil]; exact pending_read
    | [r], _ =>
      by_cases hc : r.ec = websocket_error_closed
      · rw [echo_loop_closed ws r [] hc]; exact closed r [] hc
      · by_cases hf : r.ec.failed = true
        · rw [echo_loop_read_failed ws r [] hc hf]; exact read_failed r [] hc hf
        · have hf : r.ec.failed = false := by simpa using hf
          rw [echo_loop_write_pending ws r hf]; exact pending_write r hf
    | r :: w :: script, hn =>
      by_cases hc : r.ec = websocket_error_closed
      · rw [echo_loop_closed ws r _ hc]; exact closed r _ hc
      · by_cases hf : r.ec.failed = true
        · rw [echo_loop_read_failed ws r _ hc hf]; exact read_failed r _ hc hf
        · have hf : r.ec.failed = false := by simpa using hf
          by_cases hw : w.ec.failed = true
          · rw [echo_loop_write_failed ws r w script hf hw]
            exact write_failed r w script hf hw
          · have hw : w.ec.failed = false := by simpa using hw
            rw [echo_loop_echo ws r w script hf hw]
            exact echo r w script hf hw
              (ih script.length (by simp at hn; omega) stream.construct script rfl)

theorem echo_loop_alternates (ws : stream) (script : List completion) :
    ∀ (i : Nat) (e : event),
      ((echo_loop ws script).1.flatten.filter (fun e => e.is_read || e.is_write))[i]? = some e →
      ((e.is_read = true ↔ i % 2 = 0) ∧ (e.is_write = true ↔ i % 2 = 1)) := by
  refine echo_loop_cases
    (fun _ res => ∀ (i : Nat) (e : event),
      (res.1.flatten.filter (fun e => e.is_read || e.is_write))[i]? = some e →
      ((e.is_read = true ↔ i % 2 = 0) ∧ (e.is_write = true ↔ i % 2 = 1)))
    ?_ ?_ ?_ ?_ ?_ ?_ ws script
  · intro i e h
    rcases i with _ | i
    · simp [event.is_read, event.is_write] at h
      subst h
      simp [event.is_read, event.is_write]
    · simp [event.is_read, event.is_write] at h
  · intro r script _ i e h
    rcases i with _ | i
    · simp [event.is_read, event.is_write] at h
      subst h
      simp [event.is_read, event.is_write]
    · simp [event.is_read, event.is_write] at h
  · intro r script _ _ i e h
    rcases i with _ | i
    · simp [event.is_read, event.is_write] at h
      subst h
      simp [event.is_read, event.is_write]
    · simp [event.is_read, event.is_write] at h
  · intro r _ i e h
    rcases i with _ | _ | i
    · simp [event.is_read, event.is_write] at h
      subst h
      simp [event.is_read, event.is_write]
    · simp [event.is_read, event.is_write] at h
      subst h
      simp [event.is_read, event.is_write]
    · simp [event.is_read, event.is_write] at h
  · intro r w script _ _ i e h
    rcases i with _ | _ | i
    · simp [event.is_read, event.is_write] at h
      subst h
      simp [event.is_read, event.is_write]
    · simp [event.is_read, event.is_write] at h
      subst h
      simp [event.is_read, event.is_write]
    · simp [event.is_read, event.is_write] at h
  · intro r w script _ _ ih i e h
    rcases i with _ | _ | i
    · simp [event.is_read, event.is_write] at h
      subst h
      simp [event.is_read, event.is_write]
    · simp [event.is_read, event.is_write] at h
      subst h
      simp [event.is_read, event.is_write]
    · have hm : (i + 1 + 1) % 2 = i % 2 := by omega
      rw [hm]
      apply ih i e
      rw [← h, List.flatten_cons, List.filter_append]
      simp [List.filter, event.is_read, event.is_write]


theorem echo_loop_written (ws : stream) (script : List completion) :
    written (echo_loop ws script).1.flatten = received (echo_loop ws script).1.flatten := by
  refine echo_loop_cases
    (fun _ res => written res.1.flatten = received res.1.flatten)
    ?_ ?_ ?_ ?_ ?_ ?_ ws script
  · simp [written, received]
  · intro r script hc
    simp [written, received, hc, closed_failed]
  · intro r script _ hf
    simp [written, received, hf]
  · intro r hf
    simp [written, received, hf]
  · intro r w script hf _
    simp [written, received, hf]
  · intro r w script hf _ ih
    simp only [written, received] at ih
    simp [written, received, hf, ih]

theorem echo_loop_kinds (ws : stream) (script : List completion) :
    ∀ e ∈ (echo_loop ws script).1.flatten,
      e.is_handshake = false ∧ e.is_accept = false := by
  refine echo_loop_cases
    (fun _ res => ∀ e ∈ res.1.flatten, e.is_handshake = false ∧ e.is_accept = false)
    ?_ ?_ ?_ ?_ ?_ ?_ ws script
  · simp [event.is_handshake, event.is_accept]
  · intro r script _
    simp [event.is_handshake, event.is_accept]
  · intro r script _ _
    simp [event.is_handshake, event.is_accept]
  · intro r _
    simp [event.is_handshake, event.is_accept]
  · intro r w script _ _
    simp [event.is_handshake, event.is_accept]
  · intro r w script _ _ ih e he
    simp only [List.flatten_cons, List.mem_append] at he
    rcases he with he | he
    · simp at he
      rcases he with rfl | rfl <;> simp [event.is_handshake, event.is_accept]
    · exact ih e he

theorem echo_loop_states (ws : stream) (script : List completion) :
    List.Chain session_state.step session_state.Echoing
      ((echo_loop ws script).1.flatten.map event.state ++ closing (echo_loop ws script).2) := by
  refine echo_loop_cases
    (fun _ res => List.Chain session_state.step session_state.Echoing
      (res.1.flatten.map event.state ++ closing res.2))
    ?_ ?_ ?_ ?_ ?_ ?_ ws script
  · simp [closing, event.state, session_state.step, session_state.rank]
  · intro r script _
    simp [closing, event.state, session_state.step, session_state.rank]
  · intro r script _ _
    simp [closing, event.state, session_state.step, session_state.rank]
  · intro r _
    simp [closing, event.state, session_state.step, session_state.rank]
  · intro r w script _ _
    simp [closing, event.state, session_state.step, session_state.rank]
  · intro r w script _ _ ih
    simpa [closing, event.state, session_state.step, session_state.rank] using ih


theorem echo_loop_at (ws : stream) (script : List completion) (n : Nat) (evs : List event)
    (h : (echo_loop ws script).1[n]? = some evs) :
    ∃ (its : List (List event)) (tail : List completion),
      its.length = n ∧ (∀ it ∈ its, echoed it) ∧
      (echo_loop ws script).1 = its ++ (echo_loop ws tail).1 ∧
      (echo_loop ws script).2 = (echo_loop ws tail).2 ∧
      (echo_loop ws tail).1[0]? = some evs := by
  obtain ⟨its, hlen, hall, h1, h2⟩ := echo_loop_split n ws script evs h
  refine ⟨its, script.drop (2 * n), hlen, hall, h1, h2, ?_⟩
  rw [h1, List.getElem?_append_right (by omega)] at h
  simpa [hlen] using h

theorem echo_loop_first_read_ok (ws : stream) (script : List completion) :
    ∀ (evs : List event) (r : completion), (echo_loop ws script).1[0]? = some evs →
      evs.head? = some (event.async_read (some r)) → r.ec.failed = false →
      ∃ result, evs[1]? = some (event.async_write r.got_text r.bytes result) ∧
        evs.filter event.is_write = [event.async_write r.got_text r.bytes result] := by
  refine echo_loop_cases
    (fun _ res => ∀ (evs : List event) (r : completion), res.1[0]? = some evs →
      evs.head? = some (event.async_read (some r)) → r.ec.failed = false →
      ∃ result, evs[1]? = some (event.async_write r.got_text r.bytes result) ∧
        evs.filter event.is_write = [event.async_write r.got_text r.bytes result])
    ?_ ?_ ?_ ?_ ?_ ?_ ws script
  · intro evs r h hr _
    simp at h; subst h; simp at hr
  · intro r0 script hc evs r h hr hok
    simp at h; subst h; simp at hr; subst hr
    rw [hc, closed_failed] at hok; exact Bool.noConfusion hok
  · intro r0 script _ hf evs r h hr hok
    simp at h; subst h; simp at hr; subst hr
    rw [hf] at hok; exact Bool.noConfusion hok
  · intro r0 _ evs r h hr _
    simp at h; subst h; simp at hr; subst hr
    exact ⟨none, by simp, by simp [List.filter, event.is_write]⟩
  · intro r0 w script _ _ evs r h hr _
    simp at h; subst h; simp at hr; subst hr
    exact ⟨some w.ec, by simp, by simp [List.filter, event.is_write]⟩
  · intro r0 w script _ _ _ evs r h hr _
    simp at h; subst h; simp at hr; subst hr
    exact ⟨some w.ec, by simp, by simp [List.filter, event.is_write]⟩

/-- Case analysis on how far `do_session` gets before the echo loop. -/
theorem do_session_cases (P : List completion → session_run → Prop)
    (pending_handshake : P [] ⟨[event.async_handshake none], [], status.suspended⟩)
    (handshake_failed : ∀ (h : completion) (script : List completion),
      h.ec.failed = true →
      P (h :: script)
        ⟨[event.async_handshake (some h.ec), event.fail h.ec "handshake"], [],
          status.returned⟩)
    (pending_accept : ∀ h : completion, h.ec.failed = false →
      P [h] ⟨[event.async_handshake (some h.ec), event.async_accept none], [],
        status.suspended⟩)
    (accept_failed : ∀ (h a : completion) (script : List completion),
      h.ec.failed = false → a.ec.failed = true →
      P (h :: a :: script)
        ⟨[event.async_handshake (some h.ec), event.async_accept (some a.ec),
          event.fail a.ec "accept"], [], status.returned⟩)
    (echoing : ∀ (h a : completion) (script : List completion),
      h.ec.failed = false → a.ec.failed = false →
      P (h :: a :: script)
        ⟨[event.async_handshake (some h.ec), event.async_accept (some a.ec)],
          (echo_loop stream.construct script).1, (echo_loop stream.construct script).2⟩) :
    ∀ script : List completion, P script (do_session script) := by
  intro script
  match script with
  | [] => simpa [do_session] using pending_handshake
  | [h] =>
    by_cases hf : h.ec.failed = true
    · simpa [do_session, hf] using handshake_failed h [] hf
    · have hf : h.ec.failed = false := by simpa using hf
      simpa [do_session, hf] using pending_accept h hf
  | h :: a :: script =>
    by_cases hf : h.ec.failed = true
    · simpa [do_session, hf] using handshake_failed h (a :: script) hf
    · have hf : h.ec.failed = false := by simpa using hf
      by_cases ha : a.ec.failed = true
      · simpa [do_session, hf, ha] using accept_failed h a script hf ha
      · have ha : a.ec.failed = false := by simpa using ha
        simpa [do_session, hf, ha] using echoing h a script hf ha

theorem do_session_loop (script : List completion) :
    (do_session script).loop = [] ∨
      ∃ tail : List completion,
        (do_session script).loop = (echo_loop stream.construct tail).1 ∧
        (do_session script).status = (echo_loop stream.construct tail).2 := by
  refine do_session_cases
    (fun _ run => run.loop = [] ∨ ∃ tail : List completion,
      run.loop = (echo_loop stream.construct tail).1 ∧
      run.status = (echo_loop stream.construct tail).2)
    ?_ ?_ ?_ ?_ ?_ script
  · exact Or.inl rfl
  · intro _ _ _; exact Or.inl rfl
  · intro _ _; exact Or.inl rfl
  · intro _ _ _ _ _; exact Or.inl rfl
  · intro _ _ script _ _; exact Or.inr ⟨script, rfl, rfl⟩

/-- Every iteration of the echo loop of `do_session` is an iteration of
`echo_loop` on what is left of the script, and the loop and the session end as
that run of `echo_loop` does. -/
theorem do_session_at (script : List completion) (n : Nat) (evs : List event)
    (h : (do_session script).loop[n]? = some evs) :
    ∃ tail : List completion,
      (echo_loop stream.construct tail).1[0]? = some evs ∧
      (do_session script).loop.length = n + (echo_loop stream.construct tail).1.length ∧
      (do_session script).status = (echo_loop stream.construct tail).2 := by
  rcases do_session_loop script with h0 | ⟨tail, h1, h2⟩
  · rw [h0] at h; simp at h
  · rw [h1] at h
    obtain ⟨its, tail2, hlen, _, h3, h4, h5⟩ := echo_loop_at _ _ _ _ h
    exact ⟨tail2, h5, by rw [h1, h3, List.length_append, hlen], by rw [h2, h4]⟩

theorem echo_loop_states_head (ws : stream) (script : List completion) :
    ∃ l : List session_state,
      (echo_loop ws script).1.flatten.map event.state ++ closing (echo_loop ws script).2 =
        session_state.Echoing :: l := by
  refine echo_loop_cases
    (fun _ res => ∃ l : List session_state,
      res.1.flatten.map event.state ++ closing res.2 = session_state.Echoing :: l)
    ?_ ?_ ?_ ?_ ?_ ?_ ws script
  · simp [event.state]
  · intro r script _
    simp [event.state]
  · intro r script _ _
    simp [event.state]
  · intro r _
    simp [event.state]
  · intro r w script _ _
    simp [event.state]
  · intro r w script _ _ _
    simp [event.state]

theorem written_append (s t : List event) : written (s ++ t) = written s ++ written t := by
  simp [written]

theorem written_echoed (l : List (List event)) (h : ∀ it ∈ l, echoed it) :
    (written l.flatten).length = l.length := by
  induction l with
  | nil => rfl
  | cons it l ih =>
    obtain ⟨r1, w1, _, _, rfl⟩ := h it (by simp)
    rw [List.flatten_cons, written_append, List.length_append,
      ih (fun it hit => h it (by simp [hit]))]
    simp [written]
    omega

/-! ## The claims about the session -/

/-- C1 (echo fidelity).  In every run of `do_session`, when the read of iteration
`n` of the echo loop succeeds with payload `r.bytes` and type `r.got_text`, the
second operation of that iteration is a write of exactly `r.bytes` with the text
flag `r.got_text`, and it is the only write of the iteration.  An iteration only
exists when both handshakes succeeded. -/
theorem do_session_echo_fidelity (script : List completion) (n : Nat)
    (evs : List event) (r : completion)
    (hn : (do_session script).loop[n]? = some evs)
    (hr : evs.head? = some (event.async_read (some r)))
    (hok : r.ec.failed = false) :
    ∃ result : Option error_code,
      evs[1]? = some (event.async_write r.got_text r.bytes result) ∧
      evs.filter event.is_write = [event.async_write r.got_text r.bytes result] := by
  obtain ⟨tail, h0, _, _⟩ := do_session_at script n evs hn
  exact echo_loop_first_read_ok _ tail evs r h0 hr hok

/-- C2 (sequencing).  In every run of `do_session` the reads and writes of the echo
loop alternate, starting with a read: the operation at an even position is a
read, the one at an odd position a write, so the n-th write comes after the n-th
read and before the next read.  The messages written are, in the same order,
exactly the messages read successfully. -/
theorem do_session_sequencing (script : List completion) :
    (∀ (i : Nat) (e : event), (do_session script).echo_ops[i]? = some e →
      ((e.is_read = true ↔ i % 2 = 0) ∧ (e.is_write = true ↔ i % 2 = 1))) ∧
    written (do_session script).trace = received (do_session script).trace := by
  refine do_session_cases
    (fun _ run =>
      (∀ (i : Nat) (e : event), run.echo_ops[i]? = some e →
        ((e.is_read = true ↔ i % 2 = 0) ∧ (e.is_write = true ↔ i % 2 = 1))) ∧
      written run.trace = received run.trace)
    ?_ ?_ ?_ ?_ ?_ script
  · simp [session_run.echo_ops, session_run.trace, written, received]
  · intro h script _
    simp [session_run.echo_ops, session_run.trace, written, received]
  · intro h _
    simp [session_run.echo_ops, session_run.trace, written, received]
  · intro h a script _ _
    simp [session_run.echo_ops, session_run.trace, written, received]
  · intro h a script _ _
    refine ⟨echo_loop_alternates stream.construct script, ?_⟩
    have := echo_loop_written stream.construct script
    simp only [written, received] at this
    simp [session_run.trace, written, received, this]

/-- C3 (handshake invariant).  In every run of `do_session` there is at most one
SSL handshake and at most one WebSocket accept; an accept is preceded by the SSL
handshake, completed without error, as the first operation; a read or write of
the echo loop is preceded by the SSL handshake and the accept, both completed
without error, as the first two operations; and the states of the run go from
Connecting through TlsHandshaking, WsHandshaking and Echoing in that order,
one at a time, Closed being entered from any of them. -/
theorem do_session_handshake_invariant (script : List completion) :
    (do_session script).trace.countP event.is_handshake ≤ 1 ∧
    (do_session script).trace.countP event.is_accept ≤ 1 ∧
    (∀ (i : Nat) (e : event), (do_session script).trace[i]? = some e →
      e.is_accept = true →
      0 < i ∧ ∃ ec : error_code, ec.failed = false ∧
        (do_session script).trace[0]? = some (event.async_handshake (some ec))) ∧
    (∀ (i : Nat) (e : event), (do_session script).trace[i]? = some e →
      (e.is_read || e.is_write) = true →
      1 < i ∧ ∃ ec ec2 : error_code, ec.failed = false ∧ ec2.failed = false ∧
        (do_session script).trace[0]? = some (event.async_handshake (some ec)) ∧
        (do_session script).trace[1]? = some (event.async_accept (some ec2))) ∧
    List.Chain' session_state.step (do_session script).states := by
  refine do_session_cases
    (fun _ run =>
      run.trace.countP event.is_handshake ≤ 1 ∧
      run.trace.countP event.is_accept ≤ 1 ∧
      (∀ (i : Nat) (e : event), run.trace[i]? = some e → e.is_accept = true →
        0 < i ∧ ∃ ec : error_code, ec.failed = false ∧
          run.trace[0]? = some (event.async_handshake (some ec))) ∧
      (∀ (i : Nat) (e : event), run.trace[i]? = some e →
        (e.is_read || e.is_write) = true →
        1 < i ∧ ∃ ec ec2 : error_code, ec.failed = false ∧ ec2.failed = false ∧
          run.trace[0]? = some (event.async_handshake (some ec)) ∧
          run.trace[1]? = some (event.async_accept (some ec2))) ∧
      List.Chain' session_state.step run.states)
    ?_ ?_ ?_ ?_ ?_ script
  · refine ⟨by simp [session_run.trace, List.countP_cons, event.is_handshake],
      by simp [session_run.trace, List.countP_cons, event.is_accept], ?_, ?_, ?_⟩
    · intro i e h he
      rcases i with _ | i
      · simp [session_run.trace] at h; subst h; simp [event.is_accept] at he
      · simp [session_run.trace] at h
    · intro i e h he
      rcases i with _ | i
      · simp [session_run.trace] at h; subst h; simp [event.is_read, event.is_write] at he
      · simp [session_run.trace] at h
    · simp [session_run.states, session_run.trace, event.state, session_state.step,
        session_state.rank]
  · intro h script hf
    refine ⟨by simp [session_run.trace, List.countP_cons, event.is_handshake],
      by simp [session_run.trace, List.countP_cons, event.is_accept], ?_, ?_, ?_⟩
    · intro i e h he
      rcases i with _ | _ | i
      · simp [session_run.trace] at h; subst h; simp [event.is_accept] at he
      · simp [session_run.trace] at h; subst h; simp [event.is_accept] at he
      · simp [session_run.trace] at h
    · intro i e h he
      rcases i with _ | _ | i
      · simp [session_run.trace] at h; subst h; simp [event.is_read, event.is_write] at he
      · simp [session_run.trace] at h; subst h; simp [event.is_read, event.is_write] at he
      · simp [session_run.trace] at h
    · simp [session_run.states, session_run.trace, event.state, session_state.step,
        session_state.rank]
  · intro h hf
    refine ⟨by simp [session_run.trace, List.countP_cons, event.is_handshake],
      by simp [session_run.trace, List.countP_cons, event.is_accept], ?_, ?_, ?_⟩
    · intro i e hi he
      rcases i with _ | _ | i
      · simp [session_run.trace] at hi; subst hi; simp [event.is_accept] at he
      · exact ⟨by omega, h.ec, hf, by simp [session_run.trace]⟩
      · simp [session_run.trace] at hi
    · intro i e hi he
      rcases i with _ | _ | i
      · simp [session_run.trace] at hi; subst hi; simp [event.is_read, event.is_write] at he
      · simp [session_run.trace] at hi; subst hi; simp [event.is_read, event.is_write] at he
      · simp [session_run.trace] at hi
    · simp [session_run.states, session_run.trace, event.state, session_state.step,
        session_state.rank]
  · intro h a script hf ha
    refine ⟨by simp [session_run.trace, List.countP_cons, event.is_handshake],
      by simp [session_run.trace, List.countP_cons, event.is_accept], ?_, ?_, ?_⟩
    · intro i e hi he
      rcases i with _ | i
      · simp [session_run.trace] at hi; subst hi; simp [event.is_accept] at he
      · exact ⟨by omega, h.ec, hf, by simp [session_run.trace]⟩
    · intro i e hi he
      rcases i with _ | _ | _ | i
      · simp [session_run.trace] at hi; subst hi; simp [event.is_read, event.is_write] at he
      · simp [session_run.trace] at hi; subst hi; simp [event.is_read, event.is_write] at he
      · simp [session_run.trace] at hi; subst hi; simp [event.is_read, event.is_write] at he
      · simp [session_run.trace] at hi
    · simp [session_run.states, session_run.trace, event.state, session_state.step,
        session_state.rank]
  · intro h a script hf ha
    have hk := echo_loop_kinds stream.construct script
    have hcount : ∀ p : event → Bool, (∀ e ∈ (echo_loop stream.construct script).1.flatten,
        p e = false) → (echo_loop stream.construct script).1.flatten.countP p = 0 := by
      intro p hp
      rw [List.countP_eq_zero]
      intro e he
      simp [hp e he]
    refine ⟨?_, ?_, ?_, ?_, ?_⟩
    · simp [session_run.trace, List.countP_cons, List.countP_append, event.is_handshake,
        hcount event.is_handshake (fun e he => (hk e he).1)]
    · simp [session_run.trace, List.countP_cons, List.countP_append, event.is_accept,
        hcount event.is_accept (fun e he => (hk e he).2)]
    · intro i e hi he
      rcases i with _ | i
      · simp [session_run.trace] at hi; subst hi; simp [event.is_accept] at he
      · exact ⟨by omega, h.ec, hf, by simp [session_run.trace]⟩
    · intro i e hi he
      rcases i with _ | _ | i
      · simp [session_run.trace] at hi; subst hi; simp [event.is_read, event.is_write] at he
      · simp [session_run.trace] at hi; subst hi; simp [event.is_read, event.is_write] at he
      · exact ⟨by omega, h.ec, a.ec, hf, ha, by simp [session_run.trace],
          by simp [session_run.trace]⟩
    · have hs := echo_loop_states stream.construct script
      have hcl : ∀ s : status, (match s with
          | status.returned => [session_state.Closed]
          | status.suspended => []) = closing s := by
        intro s; cases s <;> rfl
      simp only [session_run.states, session_run.trace, hcl]
      simp only [List.map_append, List.map_cons, List.map_nil, List.cons_append,
        List.nil_append, List.chain'_cons, event.state]
      refine ⟨by simp [session_state.step, session_state.rank],
        by simp [session_state.step, session_state.rank], ?_⟩
      obtain ⟨l, hl⟩ := echo_loop_states_head stream.construct script
      rw [hl] at hs ⊢
      rw [List.chain_cons] at hs
      rw [List.chain'_cons, List.Chain']
      exact ⟨by simp [session_state.step, session_state.rank], hs.2⟩

/-- C4 (handshake failure).  When the SSL handshake completes with an error,
`do_session` calls `fail` once with that error and "handshake" and returns: no
accept, no read, no write.  When the SSL handshake succeeds and the WebSocket
accept completes with an error, it calls `fail` once with that error and
"accept" and returns: no read, no write.  The coroutine returns normally in
both cases. -/
theorem do_session_handshake_failure (h a : completion) (script : List completion) :
    (h.ec.failed = true →
      do_session (h :: script) =
        ⟨[event.async_handshake (some h.ec), event.fail h.ec "handshake"], [],
          status.returned⟩) ∧
    (h.ec.failed = false → a.ec.failed = true →
      do_session (h :: a :: script) =
        ⟨[event.async_handshake (some h.ec), event.async_accept (some a.ec),
          event.fail a.ec "accept"], [], status.returned⟩) := by
  constructor
  · intro hf
    simp [do_session, hf]
  · intro hf ha
    simp [do_session, hf, ha]

/-- C5 (normal close).  When both handshakes succeed, the first `n` iterations
read and write without error, and the read of iteration `n` completes with
`websocket::error::closed`, then `do_session` returns, iteration `n` consists of
that read alone and is the last one, and `fail` is not called anywhere in the
run. -/
theorem do_session_normal_close (h a r : completion) (pre rest : List completion)
    (n : Nat) (hh : h.ec.failed = false) (ha : a.ec.failed = false)
    (hlen : pre.length = 2 * n) (hpre : ∀ c ∈ pre, c.ec.failed = false)
    (hr : r.ec = websocket_error_closed) :
    (do_session (h :: a :: (pre ++ r :: rest))).status = status.returned ∧
    (do_session (h :: a :: (pre ++ r :: rest))).loop.length = n + 1 ∧
    (do_session (h :: a :: (pre ++ r :: rest))).loop[n]? =
      some [event.async_read (some r)] ∧
    (∀ e ∈ (do_session (h :: a :: (pre ++ r :: rest))).trace, e.is_fail = false) := by
  obtain ⟨its, hl, hall, hrun⟩ :=
    echo_loop_append n stream.construct pre (r :: rest) hlen hpre
  rw [echo_loop_closed _ r rest hr] at hrun
  have hdo : do_session (h :: a :: (pre ++ r :: rest)) =
      ⟨[event.async_handshake (some h.ec), event.async_accept (some a.ec)],
        its ++ [[event.async_read (some r)]], status.returned⟩ := by
    simp [do_session, hh, ha, hrun]
  rw [hdo]
  refine ⟨rfl, by simp [hl], ?_, ?_⟩
  · show (its ++ [[event.async_read (some r)]])[n]? = _
    rw [List.getElem?_append_right (by omega)]
    simp [hl]
  · intro e he
    simp only [session_run.trace, List.mem_append, List.mem_flatten] at he
    rcases he with he | ⟨it, hit, he⟩
    · simp at he
      rcases he with rfl | rfl <;> rfl
    · rcases hit with hit | hit
      · obtain ⟨r1, w1, _, _, rfl⟩ := hall it hit
        simp at he
        rcases he with rfl | rfl <;> rfl
      · simp at hit
        subst hit
        simp at he
        subst he
        rfl

/-- C10 (oversized rejection).  Take a stream with any configured maximum and a
message longer than it.  When both handshakes succeed, the first `n` iterations
read and write without error, and the read of iteration `n` is the read of that
message, then `do_session` returns, iteration `n` consists of the read and one
call of `fail` with `MessageTooLarge` and so contains no write, although the
buffer holds the part of the message taken in, it is the last iteration, and
the writes of the whole run are those of the `n` messages echoed before. -/
theorem do_session_oversized_rejection (maximum : Nat) (m : message)
    (h a : completion) (pre rest : List completion) (n : Nat)
    (hh : h.ec.failed = false) (ha : a.ec.failed = false)
    (hlen : pre.length = 2 * n) (hpre : ∀ c ∈ pre, c.ec.failed = false)
    (hbig : maximum < m.payload.length) :
    (do_session (h :: a :: (pre ++ stream_read maximum m :: rest))).status =
      status.returned ∧
    (do_session (h :: a :: (pre ++ stream_read maximum m :: rest))).loop.length = n + 1 ∧
    (do_session (h :: a :: (pre ++ stream_read maximum m :: rest))).loop[n]? =
      some [event.async_read (some ⟨MessageTooLarge, m.payload.take maximum, m.text⟩),
        event.fail MessageTooLarge "read"] ∧
    (written (do_session (h :: a :: (pre ++ stream_read maximum m :: rest))).trace).length =
      n := by
  have hread : stream_read maximum m =
      ⟨MessageTooLarge, m.payload.take maximum, m.text⟩ := by
    simp [stream_read, hbig]
  have hc : (stream_read maximum m).ec ≠ websocket_error_closed := by
    rw [hread]
    show MessageTooLarge ≠ websocket_error_closed
    decide
  have hf : (stream_read maximum m).ec.failed = true := by
    rw [hread]
    show MessageTooLarge.failed = true
    decide
  obtain ⟨its, hl, hall, hrun⟩ :=
    echo_loop_append n stream.construct pre (stream_read maximum m :: rest) hlen hpre
  rw [echo_loop_read_failed _ _ rest hc hf] at hrun
  have hdo : do_session (h :: a :: (pre ++ stream_read maximum m :: rest)) =
      ⟨[event.async_handshake (some h.ec), event.async_accept (some a.ec)],
        its ++ [[event.async_read (some (stream_read maximum m)),
          event.fail (stream_read maximum m).ec "read"]], status.returned⟩ := by
    simp [do_session, hh, ha, hrun]
  rw [hdo]
  refine ⟨rfl, by simp [hl], ?_, ?_⟩
  · show (its ++ [[event.async_read (some (stream_read maximum m)),
        event.fail (stream_read maximum m).ec "read"]])[n]? = _
    rw [List.getElem?_append_right (by omega)]
    simp [hl, hread]
  · show (written ([event.async_handshake (some h.ec), event.async_accept (some a.ec)] ++
        (its ++ [[event.async_read (some (stream_read maximum m)),
          event.fail (stream_read maximum m).ec "read"]]).flatten)).length = n
    rw [List.flatten_append, written_append, written_append, List.length_append,
      List.length_append, written_echoed its hall, hl]
    simp [written]

/-! ## The listener -/

theorem accept_loop_failed (ctx : ssl_context) (a : accept_completion)
    (script : List accept_completion) (hf : a.ec.failed = true) :
    accept_loop ctx (a :: script) =
      listen_event.async_accept (some a) :: listen_event.fail a.ec "accept" ::
        accept_loop ctx script := by
  simp [accept_loop, hf]

theorem accept_loop_spawn (ctx : ssl_context) (a : accept_completion)
    (script : List accept_completion) (hf : a.ec.failed = false) :
    accept_loop ctx (a :: script) =
      listen_event.async_accept (some a) ::
        listen_event.spawn_session { connection := some a.connection } ctx ::
        accept_loop ctx script := by
  simp [accept_loop, hf]

theorem accept_loop_head (ctx : ssl_context) (script : List accept_completion) :
    ∃ tail : List listen_event,
      accept_loop ctx script = listen_event.async_accept script.head? :: tail := by
  cases script with
  | nil => exact ⟨[], rfl⟩
  | cons a script =>
    by_cases hf : a.ec.failed = true
    · exact ⟨_, by rw [accept_loop_failed ctx a script hf]; rfl⟩
    · exact ⟨_, by rw [accept_loop_spawn ctx a script (by simpa using hf)]; rfl⟩

theorem accept_loop_results (ctx : ssl_context) (script : List accept_completion) :
    accept_results (accept_loop ctx script) = script.map some ++ [none] := by
  induction script with
  | nil => simp [accept_loop, accept_results]
  | cons a script ih =>
    simp only [accept_results] at ih
    by_cases hf : a.ec.failed = true
    · simp [accept_loop, accept_results, hf, ih]
    · simp [accept_loop, accept_results, hf, ih]

theorem accept_loop_spawned (ctx : ssl_context) (script : List accept_completion) :
    spawned (accept_loop ctx script) =
      (script.filter fun a => !a.ec.failed).map
        fun a => (({ connection := some a.connection } : socket), ctx) := by
  induction script with
  | nil => simp [accept_loop, spawned]
  | cons a script ih =>
    simp only [spawned] at ih
    by_cases hf : a.ec.failed = true
    · simp [accept_loop, spawned, hf, ih]
    · simp [accept_loop, spawned, hf, ih]

theorem accept_loop_next (ctx : ssl_context) (script : List accept_completion) :
    ∀ (i : Nat) (a : accept_completion),
      (accept_loop ctx script)[i]? = some (listen_event.async_accept (some a)) →
      (accept_loop ctx script)[i + 1]? =
          some (if a.ec.failed then listen_event.fail a.ec "accept"
            else listen_event.spawn_session { connection := some a.connection } ctx) ∧
        ∃ result : Option accept_completion,
          (accept_loop ctx script)[i + 2]? = some (listen_event.async_accept result) := by
  induction script with
  | nil =>
    intro i a h
    rcases i with _ | i <;> simp [accept_loop] at h
  | cons a0 script ih =>
    intro i a h
    obtain ⟨tail, ht⟩ := accept_loop_head ctx script
    by_cases hf : a0.ec.failed = true
    · rw [accept_loop_failed ctx a0 script hf] at h ⊢
      rcases i with _ | _ | i
      · simp at h
        subst h
        simp [hf, ht]
      · simp at h
      · simp only [List.getElem?_cons_succ] at h ⊢
        exact ih i a h
    · have hf : a0.ec.failed = false := by simpa using hf
      rw [accept_loop_spawn ctx a0 script hf] at h ⊢
      rcases i with _ | _ | i
      · simp at h
        subst h
        simp [hf, ht]
      · simp at h
      · simp only [List.getElem?_cons_succ] at h ⊢
        exact ih i a h

/-- C7 (listener resilience).  Once open, bind and listen have succeeded, for
every list of accept outcomes the listener never returns; it performs one accept
for every outcome and one more, so the k-th accept is attempted whatever the
outcomes before it; an accept that failed is followed by the report of its error
and the next accept; an accept that succeeded is followed by the spawn of one
session with the accepted socket and the shared SSL context and the next accept;
and the sessions spawned are those of the successful accepts, in order and in
number. -/
theorem do_listen_resilience (ctx : ssl_context) (ep : endpoint) (script : listen_script)
    (hopen : script.acceptor_open.failed = false) (hbind : script.bind.failed = false)
    (hlisten : script.listen.failed = false) :
    (do_listen ctx ep script).status = status.suspended ∧
    accept_results (do_listen ctx ep script).trace = script.accepts.map some ++ [none] ∧
    (∀ (i : Nat) (a : accept_completion),
      (do_listen ctx ep script).trace[i]? = some (listen_event.async_accept (some a)) →
      (do_listen ctx ep script).trace[i + 1]? =
          some (if a.ec.failed then listen_event.fail a.ec "accept"
            else listen_event.spawn_session { connection := some a.connection } ctx) ∧
        ∃ result : Option accept_completion,
          (do_listen ctx ep script).trace[i + 2]? =
            some (listen_event.async_accept result)) ∧
    spawned (do_listen ctx ep script).trace =
      (script.accepts.filter fun a => !a.ec.failed).map
        (fun a => (({ connection := some a.connection } : socket), ctx)) ∧
    (spawned (do_listen ctx ep script).trace).length =
      script.accepts.countP fun a => !a.ec.failed := by
  have hrun : do_listen ctx ep script =
      ⟨listen_event.acceptor_open script.acceptor_open ::
        listen_event.bind ep script.bind :: listen_event.listen script.listen ::
        accept_loop ctx script.accepts, status.suspended⟩ := by
    simp [do_listen, hopen, hbind, hlisten]
  have hres := accept_loop_results ctx script.accepts
  have hsp := accept_loop_spawned ctx script.accepts
  simp only [accept_results] at hres
  simp only [spawned] at hsp
  rw [hrun]
  refine ⟨rfl, ?_, ?_, ?_, ?_⟩
  · simp [accept_results, hres]
  · intro i a h
    rcases i with _ | _ | _ | i
    · simp at h
    · simp at h
    · simp at h
    · simp only [List.getElem?_cons_succ] at h ⊢
      exact accept_loop_next ctx script.accepts i a h
  · simp [spawned, hsp]
  · simp [spawned, hsp, List.countP_eq_length_filter]

/-! ## The program -/

theorem spawn_threads_eq (i : Nat) : spawn_threads i = i := by
  induction i with
  | zero => rfl
  | succ i ih => simp [spawn_threads, ih]; omega

theorem to_size_t_of_nonneg (n : Int) (h0 : 0 ≤ n) (h1 : n < 2 ^ 64) :
    to_size_t n = n.toNat := by
  unfold to_size_t SIZE_RANGE
  congr 1
  exact Int.emod_eq_of_lt h0 (by norm_num; omega)

/-- The worker count is the argument when the argument is at least 1. -/
theorem worker_count_of_pos (n : Int) (h1 : 1 ≤ n) (h2 : n < 2 ^ 31) :
    worker_count n = n.toNat := by
  unfold worker_count
  rw [to_size_t_of_nonneg n (by omega) (by omega), to_size_t_of_nonneg 1 (by omega) (by norm_num)]
  unfold std_max
  have : (1 : Int).toNat = 1 := rfl
  rw [this]
  split
  · rfl
  · omega

/-- The worker count is 1 when the argument is 0. -/
theorem worker_count_zero : worker_count 0 = 1 := by decide

/-- For a negative argument the worker count is the argument plus `2^64`. -/
theorem worker_count_of_neg (n : Int) (h1 : -(2 ^ 31) ≤ n) (h2 : n < 0) :
    (worker_count n : Int) = n + 2 ^ 64 := by
  have hmod : n % ((2 ^ 64 : Nat) : Int) = n + 2 ^ 64 := by
    have h := Int.emod_emod_of_dvd n (dvd_refl ((2 ^ 64 : Nat) : Int))
    have h3 : (n + 2 ^ 64) % ((2 ^ 64 : Nat) : Int) = n + 2 ^ 64 :=
      Int.emod_eq_of_lt (by omega) (by norm_num; omega)
    have h4 : (n + 2 ^ 64) % ((2 ^ 64 : Nat) : Int) = n % ((2 ^ 64 : Nat) : Int) := by
      have : (n + 2 ^ 64 : Int) = n + ((2 ^ 64 : Nat) : Int) := by norm_num
      rw [this, Int.add_emod_self]
    rw [← h4, h3]
  have hn : to_size_t n = (n + 2 ^ 64).toNat := by
    unfold to_size_t SIZE_RANGE
    rw [hmod]
  have h1' : to_size_t 1 = 1 := by decide
  unfold worker_count std_max
  rw [hn, h1']
  split
  · rw [Int.toNat_of_nonneg (by omega)]
  · omega

/-- With at least one worker, the threads of the vector and the thread of `main`
together are as many as the worker count. -/
theorem execution_units_eq (threads : Nat) (h1 : 1 ≤ threads) (h2 : threads < 2 ^ 64) :
    execution_units threads = threads := by
  unfold execution_units SIZE_RANGE
  rw [spawn_threads_eq]
  omega

/-- C9, the failing input.  For the argument -1 the worker count is `2^64 - 1`,
not 1: `std::max<std::size_t>` compares the arguments after their conversion to
`std::size_t`. -/
theorem worker_count_minus_one :
    worker_count (-1) = 18446744073709551615 ∧ worker_count (-1) ≠ 1 := by
  decide

theorem do_listen_returned (ctx : ssl_context) (ep : endpoint) (script : listen_script) :
    (do_listen ctx ep script).status = status.returned ↔
      (script.acceptor_open.failed = true ∨ script.bind.failed = true ∨
        script.listen.failed = true) := by
  by_cases h1 : script.acceptor_open.failed = true
  · simp [do_listen, h1]
  · by_cases h2 : script.bind.failed = true
    · simp [do_listen, h1, h2]
    · by_cases h3 : script.listen.failed = true
      · simp [do_listen, h1, h2, h3]
      · simp [do_listen, h1, h2, h3]

theorem do_listen_setup_failed (ctx : ssl_context) (ep : endpoint) (script : listen_script)
    (h : script.acceptor_open.failed = true ∨ script.bind.failed = true ∨
      script.listen.failed = true) :
    accept_results (do_listen ctx ep script).trace = [] ∧
      spawned (do_listen ctx ep script).trace = [] ∧
      reported (do_listen ctx ep script).trace =
        [if script.acceptor_open.failed then (script.acceptor_open, "open")
          else if script.bind.failed then (script.bind, "bind")
          else (script.listen, "listen")] := by
  by_cases h1 : script.acceptor_open.failed = true
  · simp [do_listen, h1, accept_results, spawned, reported]
  · by_cases h2 : script.bind.failed = true
    · simp [do_listen, h1, h2, accept_results, spawned, reported]
    · by_cases h3 : script.listen.failed = true
      · simp [do_listen, h1, h2, h3, accept_results, spawned, reported]
      · rcases h with h | h | h
        · exact absurd h h1
        · exact absurd h h2
        · exact absurd h h3

/-- C8, counterexample.  Started as in the usage example, with one thread, and
with a bind that fails (error 98, address in use), `main` returns exit code 0
on any machine: `do_listen` reports the error and returns, `ios.run()` runs out
of work. -/
theorem main_bind_failure_exits_zero :
    main ⟨4, some "0.0.0.0", 8080, 1⟩ ⟨0⟩
        ⟨⟨0, error_category.system⟩, ⟨98, error_category.system⟩,
          ⟨0, error_category.system⟩, []⟩ 0 =
      ⟨0,
        some ⟨[listen_event.acceptor_open ⟨0, error_category.system⟩,
          listen_event.bind ⟨"0.0.0.0", 8080⟩ ⟨98, error_category.system⟩,
          listen_event.fail ⟨98, error_category.system⟩ "bind"], status.returned⟩,
        process_result.exited 0⟩ := by
  decide

/-- C8, amended.  When the argument count is not 4, `main` returns
`EXIT_FAILURE`, which is not zero.  When the listener's open, bind or listen step
fails, `do_listen` reports exactly that error, once and tagged "open", "bind"
or "listen" after the step that failed, and returns without any accept or
session, and with a worker count of 1 `main` then returns `EXIT_SUCCESS`, which
is 0.  Exit code 0 is returned only on that path: with four arguments, after
`ios.run()` has returned because the listener gave up. -/
theorem main_exit_code (args : arguments) (ctx : ssl_context) (script : listen_script)
    (thread_limit : Nat) :
    (args.argc ≠ 4 →
      (main args ctx script thread_limit).result = process_result.exited EXIT_FAILURE ∧
        EXIT_FAILURE ≠ 0) ∧
    (args.argc = 4 → args.address.isSome = true → worker_count args.threads = 1 →
      (script.acceptor_open.failed = true ∨ script.bind.failed = true ∨
        script.listen.failed = true) →
      (main args ctx script thread_limit).result = process_result.exited EXIT_SUCCESS ∧
        EXIT_SUCCESS = 0 ∧
        ∃ run : listen_run, (main args ctx script thread_limit).listener = some run ∧
          run.status = status.returned ∧ accept_results run.trace = [] ∧
          spawned run.trace = [] ∧
          reported run.trace =
            [if script.acceptor_open.failed then (script.acceptor_open, "open")
              else if script.bind.failed then (script.bind, "bind")
              else (script.listen, "listen")]) ∧
    ((main args ctx script thread_limit).result = process_result.exited 0 →
      args.argc = 4 ∧
        (script.acceptor_open.failed = true ∨ script.bind.failed = true ∨
          script.listen.failed = true)) := by
  refine ⟨?_, ?_, ?_⟩
  · intro h
    exact ⟨by simp [main, h], by decide⟩
  · intro hargc haddr hw hfail
    obtain ⟨address, ha⟩ := Option.isSome_iff_exists.mp haddr
    have hn : (1 + SIZE_RANGE - 1) % SIZE_RANGE = 0 := by decide
    have hv : ¬ (vector_max_size < 0 ∨ thread_limit < 0) := by omega
    have hst := (do_listen_returned ctx ⟨address, (args.port % 65536).toNat⟩ script).mpr hfail
    have htr := do_listen_setup_failed ctx ⟨address, (args.port % 65536).toNat⟩ script hfail
    have hmain : main args ctx script thread_limit =
        ⟨0, some (do_listen ctx ⟨address, (args.port % 65536).toNat⟩ script),
          process_result.exited EXIT_SUCCESS⟩ := by
      unfold main
      simp only [hargc, ne_eq, not_true_eq_false, if_false, ha, hw, hn]
      rw [if_neg hv]
      simp only [hst, spawn_threads, if_true]
    rw [hmain]
    exact ⟨rfl, rfl, _, rfl, hst, htr.1, htr.2.1, htr.2.2⟩
  · intro h
    by_cases hargc : args.argc = 4
    · refine ⟨hargc, ?_⟩
      rw [← do_listen_returned ctx
        ⟨args.address.getD "", (args.port % 65536).toNat⟩ script]
      cases ha : args.address with
      | none => simp [main, hargc, ha] at h
      | some address =>
        unfold main at h
        simp only [hargc, ne_eq, not_true_eq_false, if_false, ha] at h
        simp only [Option.getD]
        generalize (worker_count args.threads + SIZE_RANGE - 1) % SIZE_RANGE = k at h
        by_cases hv : vector_max_size < k ∨ thread_limit < k
        · rw [if_pos hv] at h
          exact absurd h (by simp)
        · rw [if_neg hv] at h
          cases hs : (do_listen ctx ⟨address, (args.port % 65536).toNat⟩ script).status with
          | returned => rfl
          | suspended =>
            rw [hs] at h
            exact absurd h (by simp)
    · simp [main, hargc, EXIT_FAILURE] at h

/-! ## The theorems at concrete inputs -/

/-- C1 at a concrete script: the message "ping" read in the first
iteration is written back as text. -/
theorem do_session_echo_fidelity_witness :
    (do_session [done, done, ping, done, peer_closed]).loop[0]? =
      some [event.async_read (some ping),
        event.async_write true [112, 105, 110, 103] (some no_error)] ∧
    ∃ result : Option error_code,
      [event.async_read (some ping),
        event.async_write true [112, 105, 110, 103] (some no_error)][1]? =
        some (event.async_write ping.got_text ping.bytes result) ∧
      [event.async_read (some ping),
        event.async_write true [112, 105, 110, 103] (some no_error)].filter event.is_write =
        [event.async_write ping.got_text ping.bytes result] :=
  ⟨by decide,
    do_session_echo_fidelity [done, done, ping, done, peer_closed] 0
      [event.async_read (some ping),
        event.async_write true [112, 105, 110, 103] (some no_error)]
      ping (by decide) (by decide) (by decide)⟩

/-- C2 at a concrete script: the second operation of the echo loop of
an echo of "ping" is a write and not a read. -/
theorem do_session_sequencing_witness :
    (do_session [done, done, ping, done, peer_closed]).echo_ops[1]? =
      some (event.async_write true [112, 105, 110, 103] (some no_error)) ∧
    (((event.async_write true [112, 105, 110, 103] (some no_error)).is_read = true ↔
        1 % 2 = 0) ∧
      ((event.async_write true [112, 105, 110, 103] (some no_error)).is_write = true ↔
        1 % 2 = 1)) :=
  ⟨by decide,
    (do_session_sequencing [done, done, ping, done, peer_closed]).1 1
      (event.async_write true [112, 105, 110, 103] (some no_error)) (by decide)⟩

/-- C3 at a concrete script: the read of "ping" is the third
operation, after both handshakes. -/
theorem do_session_handshake_invariant_witness :
    (do_session [done, done, ping, done, peer_closed]).trace[2]? =
      some (event.async_read (some ping)) ∧
    (1 < 2 ∧ ∃ ec ec2 : error_code, ec.failed = false ∧ ec2.failed = false ∧
      (do_session [done, done, ping, done, peer_closed]).trace[0]? =
        some (event.async_handshake (some ec)) ∧
      (do_session [done, done, ping, done, peer_closed]).trace[1]? =
        some (event.async_accept (some ec2))) :=
  ⟨by decide,
    (do_session_handshake_invariant [done, done, ping, done, peer_closed]).2.2.2.1 2
      (event.async_read (some ping)) (by decide) (by decide)⟩

/-- C4 at concrete scripts: a reset during the SSL handshake,
and a reset during the WebSocket accept. -/
theorem do_session_handshake_failure_witness :
    reset.ec.failed = true ∧ done.ec.failed = false ∧
    do_session [reset, done, ping] =
      ⟨[event.async_handshake (some reset.ec), event.fail reset.ec "handshake"], [],
        status.returned⟩ ∧
    do_session [done, reset, ping] =
      ⟨[event.async_handshake (some done.ec), event.async_accept (some reset.ec),
        event.fail reset.ec "accept"], [], status.returned⟩ :=
  ⟨by decide, by decide,
    (do_session_handshake_failure reset done [ping]).1 (by decide),
    (do_session_handshake_failure done reset [ping]).2 (by decide) (by decide)⟩

/-- C5 at a concrete script: one echo of "ping", then the peer
closes. -/
theorem do_session_normal_close_witness :
    (done.ec.failed = false ∧ [ping, done].length = 2 * 1 ∧
      (∀ c ∈ [ping, done], c.ec.failed = false) ∧
      peer_closed.ec = websocket_error_closed) ∧
    ((do_session (done :: done :: ([ping, done] ++ peer_closed :: []))).status =
        status.returned ∧
      (do_session (done :: done :: ([ping, done] ++ peer_closed :: []))).loop.length =
        1 + 1 ∧
      (do_session (done :: done :: ([ping, done] ++ peer_closed :: []))).loop[1]? =
        some [event.async_read (some peer_closed)] ∧
      (∀ e ∈ (do_session (done :: done :: ([ping, done] ++ peer_closed :: []))).trace,
        e.is_fail = false)) :=
  ⟨⟨by decide, by decide, by decide, by decide⟩,
    do_session_normal_close done done peer_closed [ping, done] [] 1
      (by decide) (by decide) (by decide) (by decide) (by decide)⟩

/-- C10 at a concrete script: after one echo of "ping", a message of five
octets arrives on a stream with a maximum of four. -/
theorem do_session_oversized_rejection_witness :
    (done.ec.failed = false ∧ [ping, done].length = 2 * 1 ∧
      (∀ c ∈ [ping, done], c.ec.failed = false) ∧
      4 < (⟨false, [1, 2, 3, 4, 5]⟩ : message).payload.length) ∧
    do_session [done, done, ping, done, stream_read 4 ⟨false, [1, 2, 3, 4, 5]⟩, done] =
      ⟨[event.async_handshake (some no_error), event.async_accept (some no_error)],
        [[event.async_read (some ping), event.async_write true ping.bytes (some no_error)],
          [event.async_read (some ⟨MessageTooLarge, [1, 2, 3, 4], false⟩),
            event.fail MessageTooLarge "read"]],
        status.returned⟩ ∧
    ((do_session (done :: done ::
        ([ping, done] ++ stream_read 4 ⟨false, [1, 2, 3, 4, 5]⟩ :: [done]))).status =
        status.returned ∧
      (do_session (done :: done ::
        ([ping, done] ++ stream_read 4 ⟨false, [1, 2, 3, 4, 5]⟩ :: [done]))).loop.length =
        1 + 1 ∧
      (do_session (done :: done ::
        ([ping, done] ++ stream_read 4 ⟨false, [1, 2, 3, 4, 5]⟩ :: [done]))).loop[1]? =
        some [event.async_read (some
            ⟨MessageTooLarge, (⟨false, [1, 2, 3, 4, 5]⟩ : message).payload.take 4,
              (⟨false, [1, 2, 3, 4, 5]⟩ : message).text⟩),
          event.fail MessageTooLarge "read"] ∧
      (written (do_session (done :: done ::
        ([ping, done] ++ stream_read 4 ⟨false, [1, 2, 3, 4, 5]⟩ :: [done]))).trace).length =
        1) :=
  ⟨⟨by decide, by decide, by decide, by decide⟩, by decide,
    do_session_oversized_rejection 4 ⟨false, [1, 2, 3, 4, 5]⟩ done done [ping, done] [done] 1
      (by decide) (by decide) (by decide) (by decide) (by decide)⟩

/-- C7 at a concrete script: a failed accept between two successful
ones. -/
theorem do_listen_resilience_witness :
    (do_listen ⟨7⟩ ⟨"0.0.0.0", 8080⟩
      ⟨no_error, no_error, no_error,
        [⟨no_error, 1⟩, ⟨connection_reset, 2⟩, ⟨no_error, 3⟩]⟩).trace =
      [listen_event.acceptor_open no_error, listen_event.bind ⟨"0.0.0.0", 8080⟩ no_error,
        listen_event.listen no_error,
        listen_event.async_accept (some ⟨no_error, 1⟩),
        listen_event.spawn_session ⟨some 1⟩ ⟨7⟩,
        listen_event.async_accept (some ⟨connection_reset, 2⟩),
        listen_event.fail connection_reset "accept",
        listen_event.async_accept (some ⟨no_error, 3⟩),
        listen_event.spawn_session ⟨some 3⟩ ⟨7⟩,
        listen_event.async_accept none] ∧
    (spawned (do_listen ⟨7⟩ ⟨"0.0.0.0", 8080⟩
      ⟨no_error, no_error, no_error,
        [⟨no_error, 1⟩, ⟨connection_reset, 2⟩, ⟨no_error, 3⟩]⟩).trace).length =
      [(⟨no_error, 1⟩ : accept_completion), ⟨connection_reset, 2⟩, ⟨no_error, 3⟩].countP
        (fun a => !a.ec.failed) :=
  ⟨by decide,
    (do_listen_resilience ⟨7⟩ ⟨"0.0.0.0", 8080⟩
      ⟨no_error, no_error, no_error,
        [⟨no_error, 1⟩, ⟨connection_reset, 2⟩, ⟨no_error, 3⟩]⟩
      (by decide) (by decide) (by decide)).2.2.2.2⟩

/-- C8, amended, at concrete inputs: no arguments at all, and the usage example
with the address already in use. -/
theorem main_exit_code_witness :
    ((main ⟨1, none, 0, 0⟩ ⟨7⟩ ⟨no_error, no_error, no_error, []⟩ 0).result =
        process_result.exited EXIT_FAILURE ∧ EXIT_FAILURE ≠ 0) ∧
    ((main usage_example ⟨7⟩ ⟨no_error, address_in_use, no_error, []⟩ 0).result =
        process_result.exited EXIT_SUCCESS ∧
      EXIT_SUCCESS = 0 ∧
      ∃ run : listen_run,
        (main usage_example ⟨7⟩ ⟨no_error, address_in_use, no_error, []⟩ 0).listener =
          some run ∧
        run.status = status.returned ∧ accept_results run.trace = [] ∧
        spawned run.trace = [] ∧
        reported run.trace =
          [if no_error.failed then (no_error, "open")
            else if address_in_use.failed then (address_in_use, "bind")
            else (no_error, "listen")]) ∧
    (if no_error.failed then (no_error, "open")
      else if address_in_use.failed then (address_in_use, "bind")
      else (no_error, "listen")) = (address_in_use, "bind") :=
  ⟨(main_exit_code ⟨1, none, 0, 0⟩ ⟨7⟩ ⟨no_error, no_error, no_error, []⟩ 0).1 (by decide),
    (main_exit_code usage_example ⟨7⟩ ⟨no_error, address_in_use, no_error, []⟩ 0).2.1
      (by decide) (by decide) (by decide) (Or.inr (Or.inl (by decide))),
    by decide⟩

end Beast
